import Mathlib

/-!
Shallow embedding of the analytics core of the personal-finance MCP server
(`app/analytics/types.py`, `calculator.py`, `forecast.py`, `anomaly.py`).

Modelling conventions:
* Python `float` amounts are modelled as exact rationals (`ℚ`); the claims under
  study are about the arithmetic structure of the computations, not about
  floating-point rounding.
* Python `dict` values built by insertion/update are modelled as association
  lists in insertion order with unique keys.
* Optional parameters are `Option` values; Python truthiness of a list/string
  (`if transactions:`, `if account_id:`) is modelled explicitly: `None` and the
  empty list/string are falsy.
* `datetime.date` is a record of year/month/day integers.
-/

/-- Calendar date as carried by a Python `datetime.date` value. -/
structure PyDate where
  year : Int
  month : Int
  day : Int
deriving DecidableEq, Inhabited

/-- `app.analytics.types.TransactionRecord`. -/
structure TransactionRecord where
  amount : ℚ
  type : String
  category : String
  date : PyDate
  account_id : String
deriving DecidableEq, Inhabited

/-- `app.analytics.types.AccountRecord`. -/
structure AccountRecord where
  id : String
  balance : ℚ
deriving DecidableEq, Inhabited

/-- Python truthiness of an optional list: `None` and `[]` are falsy
(`if transactions:` in `total_balance` / `balance_by_account`). -/
def listTruthy {α : Type} : Option (List α) → Bool
  | none => false
  | some l => !l.isEmpty

/-- Python truthiness of an optional string: `None` and `""` are falsy
(`if account_id:` in `forecast_balance` / `detect_anomalies`). -/
def strTruthy : Option String → Bool
  | none => false
  | some s => !s.isEmpty

/-- One iteration of the loop of `_balance_from_transactions`:
`total += amount` for income, `total -= amount` otherwise. -/
def balanceStep (total : ℚ) (tx : TransactionRecord) : ℚ :=
  if tx.type = "income" then total + tx.amount else total - tx.amount

/-- `calculator._balance_from_transactions`. -/
def balance_from_transactions (transactions : List TransactionRecord) : ℚ :=
  transactions.foldl balanceStep 0

/-- `calculator.total_balance`. -/
def total_balance (accounts : List AccountRecord)
    (transactions : Option (List TransactionRecord)) : ℚ :=
  if listTruthy transactions then balance_from_transactions (transactions.getD [])
  else (accounts.map (·.balance)).sum

/-- Add `delta` to the entry of `aid` in the association list, inserting the
key with initial value `0.0` when absent (`if aid not in result: result[aid] = 0.0`
followed by `result[aid] ± amount`; a fresh key lands at the end, as dict
insertion order does). -/
def addToAccount (result : List (String × ℚ)) (aid : String) (delta : ℚ) :
    List (String × ℚ) :=
  match result with
  | [] => [(aid, delta)]
  | (k, v) :: rest =>
    if k = aid then (k, v + delta) :: rest else (k, v) :: addToAccount rest aid delta

/-- The per-transaction dict update of `balance_by_account`. -/
def accountStep (result : List (String × ℚ)) (tx : TransactionRecord) :
    List (String × ℚ) :=
  addToAccount result tx.account_id
    (if tx.type = "income" then tx.amount else -tx.amount)

/-- The transaction branch of `balance_by_account`: fold of the dict updates. -/
def balancesFromTx (transactions : List TransactionRecord) : List (String × ℚ) :=
  transactions.foldl accountStep []

/-- `calculator.balance_by_account`. -/
def balance_by_account (accounts : List AccountRecord)
    (transactions : Option (List TransactionRecord)) : List (String × ℚ) :=
  if listTruthy transactions then balancesFromTx (transactions.getD [])
  else accounts.map fun a => (a.id, a.balance)

/-- `calculator.MonthlyFlow`. -/
structure MonthlyFlow where
  year : Int
  month : Int
  income : ℚ
  expense : ℚ
  net : ℚ
deriving DecidableEq, Inhabited

/-- An entry of the `by_month` defaultdict of `monthly_flow`:
a `(year, month)` key with its running `(income, expense)` sums. -/
abbrev MonthEntry : Type := (Int × Int) × (ℚ × ℚ)

/-- Dict update of `monthly_flow`: add `amt` to the income (resp. expense)
component of the entry at `key`, defaulting to `(0.0, 0.0)` for a fresh key,
which lands at the end (dict insertion order). -/
def addToMonth (m : List MonthEntry) (key : Int × Int) (isIncome : Bool)
    (amt : ℚ) : List MonthEntry :=
  match m with
  | [] => [(key, if isIncome then (amt, 0) else (0, amt))]
  | (k, v) :: rest =>
    if k = key then
      (k, if isIncome then (v.1 + amt, v.2) else (v.1, v.2 + amt)) :: rest
    else (k, v) :: addToMonth rest key isIncome amt

/-- One iteration of the grouping loop of `monthly_flow`. -/
def monthStep (m : List MonthEntry) (tx : TransactionRecord) : List MonthEntry :=
  addToMonth m (tx.date.year, tx.date.month) (decide (tx.type = "income")) tx.amount

/-- The grouping pass of `monthly_flow` (the `by_month` dict after the loop). -/
def buildMonths (transactions : List TransactionRecord) : List MonthEntry :=
  transactions.foldl monthStep []

/-- Lexicographic order on `(year, month)` keys: how Python's `sorted`
compares the tuples. -/
def keyLE (a b : Int × Int) : Prop := a.1 < b.1 ∨ (a.1 = b.1 ∧ a.2 ≤ b.2)

/-- Strict lexicographic order on `(year, month)` keys. -/
def keyLT (a b : Int × Int) : Prop := a.1 < b.1 ∨ (a.1 = b.1 ∧ a.2 < b.2)

instance : DecidableRel keyLE := fun a b => by unfold keyLE; infer_instance

instance : DecidableRel keyLT := fun a b => by unfold keyLT; infer_instance

/-- Order on month entries by key only (`sorted(by_month.items())`; keys are
unique, so ties on the key never have to be broken by the values). -/
def entryLE (a b : MonthEntry) : Prop := keyLE a.1 b.1

instance : DecidableRel entryLE := fun a b => by unfold entryLE; infer_instance

instance : IsTotal MonthEntry entryLE :=
  ⟨fun a b => by simp only [entryLE, keyLE]; omega⟩

instance : IsTrans MonthEntry entryLE :=
  ⟨fun a b c hab hbc => by
    simp only [entryLE, keyLE] at hab hbc ⊢; omega⟩

/-- Turn a finished month entry into the `MonthlyFlow` record
(`net` computed once per bucket as `income - expense`). -/
def toFlow (e : MonthEntry) : MonthlyFlow :=
  ⟨e.1.1, e.1.2, e.2.1, e.2.2, e.2.1 - e.2.2⟩

/-- `calculator.monthly_flow`: group by `(year, month)`, then emit buckets in
ascending key order. -/
def monthly_flow (transactions : List TransactionRecord) : List MonthlyFlow :=
  (List.insertionSort entryLE (buildMonths transactions)).map toFlow

/-- The bucket filter of `savings_ratio`: applied only when both `year` and
`month` are present (`if year is not None and month is not None`). -/
def flowFiltered (transactions : List TransactionRecord)
    (year month : Option Int) : List MonthlyFlow :=
  match year, month with
  | some y, some m =>
    (monthly_flow transactions).filter fun f => decide (f.year = y ∧ f.month = m)
  | _, _ => monthly_flow transactions

/-- `calculator.savings_ratio`. -/
def savings_ratio (transactions : List TransactionRecord)
    (year month : Option Int) : Option ℚ :=
  let flow := flowFiltered transactions year month
  if flow.isEmpty then none
  else
    let total_income := (flow.map (·.income)).sum
    let total_expense := (flow.map (·.expense)).sum
    if total_income ≤ 0 then none
    else some ((total_income - total_expense) / total_income)

/-- `calculator.CategoryDistribution`. -/
structure CategoryDistribution where
  by_category : List (String × ℚ)
  total : ℚ
deriving DecidableEq, Inhabited

/-- The `defaultdict(float)` update of `distribution_by_category`. -/
def addToCategory (m : List (String × ℚ)) (cat : String) (amt : ℚ) :
    List (String × ℚ) :=
  match m with
  | [] => [(cat, amt)]
  | (k, v) :: rest =>
    if k = cat then (k, v + amt) :: rest else (k, v) :: addToCategory rest cat amt

/-- The type/year/month filter of `distribution_by_category`. -/
def catFiltered (transactions : List TransactionRecord)
    (transaction_type : String) (year month : Option Int) :
    List TransactionRecord :=
  transactions.filter fun t =>
    decide (t.type = transaction_type)
      && year.all (fun y => decide (t.date.year = y))
      && month.all (fun m => decide (t.date.month = m))

/-- `calculator.distribution_by_category`. -/
def distribution_by_category (transactions : List TransactionRecord)
    (transaction_type : String) (year month : Option Int) :
    CategoryDistribution :=
  let by_cat :=
    (catFiltered transactions transaction_type year month).foldl
      (fun m t => addToCategory m t.category t.amount) []
  ⟨by_cat, (by_cat.map (·.2)).sum⟩

/-- Round a rational to the nearest integer, ties to the even integer:
the tie-breaking rule of Python's `round`. -/
def roundHalfEven (q : ℚ) : Int :=
  let f := ⌊q⌋
  let frac := q - f
  if frac < 1 / 2 then f
  else if 1 / 2 < frac then f + 1
  else if f % 2 = 0 then f else f + 1

/-- Python `round(x, 2)` on the exact-rational model. -/
def round2 (q : ℚ) : ℚ := (roundHalfEven (q * 100) : ℚ) / 100

/-- Zero-pad the decimal representation of `n` to width `w`
(Python `f"{n:04d}"` / `f"{n:02d}"`; used here only with nonnegative `n`,
years and months). -/
def padNum (w : Nat) (n : Int) : String :=
  let s := toString n
  if s.length < w then String.mk (List.replicate (w - s.length) '0') ++ s else s

/-- The `f"{y:04d}-{m:02d}"` period label. -/
def periodStr (y m : Int) : String := padNum 4 y ++ "-" ++ padNum 2 m

/-- `forecast.ForecastPoint`. -/
structure ForecastPoint where
  period : String
  value : ℚ
deriving DecidableEq, Inhabited

/-- `forecast.ForecastResult`. -/
structure ForecastResult where
  points : List ForecastPoint
  slope : ℚ
deriving DecidableEq, Inhabited

/-- The month advance at the top of each forecast loop iteration:
`m += 1; if m > 12: m = 1; y += 1`. -/
def nextMonth (ym : Int × Int) : Int × Int :=
  if ym.2 + 1 > 12 then (ym.1 + 1, 1) else (ym.1, ym.2 + 1)

/-- The forecast loop of the no-history branch of `forecast_balance`: every
future month holds the current balance (no rounding is applied there). -/
def flatPoints (ym : Int × Int) (current : ℚ) : Nat → List ForecastPoint
  | 0 => []
  | Nat.succ k =>
    let ym2 := nextMonth ym
    ⟨periodStr ym2.1 ym2.2, current⟩ :: flatPoints ym2 current k

/-- The forecast loop of the history branch of `forecast_balance`:
`cum += avg_net` each month, rounded to 2 decimals only at output. -/
def forecastPoints (ym : Int × Int) (cum avg : ℚ) : Nat → List ForecastPoint
  | 0 => []
  | Nat.succ k =>
    let ym2 := nextMonth ym
    ⟨periodStr ym2.1 ym2.2, round2 (cum + avg)⟩ :: forecastPoints ym2 (cum + avg) avg k

/-- The transaction list `forecast_balance` derives its flow from:
filtered on `account_id` equality when `account_id` is truthy. -/
def filteredTx (transactions : List TransactionRecord)
    (account_id : Option String) : List TransactionRecord :=
  match account_id with
  | some aid =>
    if aid.isEmpty then transactions
    else transactions.filter fun t => decide (t.account_id = aid)
  | none => transactions

/-- The current-balance computation shared by both branches of
`forecast_balance`: `balance_by_account(accounts, transactions)` then either
`balances.get(account_id, 0.0)` or the sum of all values. -/
def currentBalance (accounts : List AccountRecord)
    (transactions : List TransactionRecord) (account_id : Option String) : ℚ :=
  let balances := balance_by_account accounts (some transactions)
  match account_id with
  | some aid =>
    if aid.isEmpty then (balances.map (·.2)).sum
    else ((balances.lookup aid).getD 0)
  | none => (balances.map (·.2)).sum

/-- `forecast.forecast_balance`. The no-history branch of the source reads
`date.today()`; that ambient date is made an explicit `today` argument here. -/
def forecast_balance (today : PyDate) (accounts : List AccountRecord)
    (transactions : List TransactionRecord) (account_id : Option String)
    (months_ahead : Nat) : ForecastResult :=
  let flow := monthly_flow (filteredTx transactions account_id)
  if flow.isEmpty then
    let current := currentBalance accounts transactions account_id
    ⟨flatPoints (today.year, today.month) current months_ahead, 0⟩
  else
    let net_values := flow.map (·.net)
    let n := net_values.length
    let avg_net := if n = 0 then 0 else net_values.sum / n
    let current := currentBalance accounts transactions account_id
    let last := (flow.getLast?).getD default
    ⟨forecastPoints (last.year, last.month) current avg_net months_ahead, avg_net⟩

/-- `anomaly.AnomalyPoint`. The source also stores the z-score rounded to two
decimals; the z-score is `(amount - mean) / sqrt(variance)`, irrational in
general, and no claim under study refers to its stored value, so the record
keeps the identifying fields only. The ISO date string is kept as the date value. -/
structure AnomalyPoint where
  index : Nat
  amount : ℚ
  type : String
  category : String
  date : PyDate
  account_id : String
deriving DecidableEq, Inhabited

/-- `anomaly.AnomalyResult`. The source stores `std = sqrt(variance)` (rounded
to two decimals); the exact variance is kept instead, with `std = 0` exactly
when `variance = 0`. `mean` is rounded to two decimals as in the source. -/
structure AnomalyResult where
  anomalies : List AnomalyPoint
  threshold : ℚ
  mean : ℚ
  variance : ℚ
deriving DecidableEq, Inhabited

/-- The `account_id` / `transaction_type` filters of `detect_anomalies`
(Python truthiness: `None` and `""` skip the filter). -/
def anomalyFiltered (transactions : List TransactionRecord)
    (account_id transaction_type : Option String) : List TransactionRecord :=
  let f1 := match account_id with
    | some aid =>
      if aid.isEmpty then transactions
      else transactions.filter fun t => decide (t.account_id = aid)
    | none => transactions
  match transaction_type with
  | some ty => if ty.isEmpty then f1 else f1.filter fun t => decide (t.type = ty)
  | none => f1

/-- The population mean of the filtered amounts (`sum(amounts) / len(amounts)`). -/
def meanAmount (filtered : List TransactionRecord) : ℚ :=
  ((filtered.map (·.amount)).sum) / (filtered.length : ℚ)

/-- The population variance of the filtered amounts
(`sum((x - mean) ** 2 for x in amounts) / len(amounts)`). -/
def varAmount (filtered : List TransactionRecord) : ℚ :=
  ((filtered.map (fun t => (t.amount - meanAmount filtered) ^ 2)).sum)
    / (filtered.length : ℚ)

/-- The standard deviation of the source, as a real:
`math.sqrt(variance) if variance > 0 else 0.0`. -/
noncomputable def stdR (variance : ℚ) : ℝ :=
  if 0 < variance then Real.sqrt variance else 0

/-- The z-score of the source, as a real: `0.0` when the standard deviation is
zero, else `(amount - mean) / std`. -/
noncomputable def zScoreR (x mean variance : ℚ) : ℝ :=
  if stdR variance = 0 then 0 else ((x : ℝ) - (mean : ℝ)) / stdR variance

/-- Decidable form of the source's anomaly test `abs(z) >= threshold` over the
exact-rational model, comparing squares to stay inside `ℚ`; it agrees with the
real-valued test on `zScoreR` (see `anomalyFlag_iff_zscore`). -/
def anomalyFlag (x mean variance threshold : ℚ) : Bool :=
  if 0 < variance then
    if threshold ≤ 0 then true
    else decide (threshold ^ 2 * variance ≤ (x - mean) ^ 2)
  else decide (threshold ≤ 0)

/-- Build the reported `AnomalyPoint` for the transaction at filtered index `i`. -/
def mkPoint (i : Nat) (tx : TransactionRecord) : AnomalyPoint :=
  ⟨i, tx.amount, tx.type, tx.category, tx.date, tx.account_id⟩

/-- The `for i, tx in enumerate(filtered)` loop of `detect_anomalies`,
started at index `i`. -/
def collectAnomalies (mean variance threshold : ℚ) :
    Nat → List TransactionRecord → List AnomalyPoint
  | _, [] => []
  | i, tx :: rest =>
    if anomalyFlag tx.amount mean variance threshold then
      mkPoint i tx :: collectAnomalies mean variance threshold (i + 1) rest
    else collectAnomalies mean variance threshold (i + 1) rest

/-- `anomaly.detect_anomalies`. -/
def detect_anomalies (transactions : List TransactionRecord) (threshold : ℚ)
    (account_id transaction_type : Option String) : AnomalyResult :=
  let filtered := anomalyFiltered transactions account_id transaction_type
  if filtered.length < 2 then ⟨[], threshold, 0, 0⟩
  else
    let mean := meanAmount filtered
    let variance := varAmount filtered
    ⟨collectAnomalies mean variance threshold 0 filtered,
      threshold, round2 mean, variance⟩

/-- The `(year, month)` of the last monthly bucket (`flow[-1]`) that anchors
the forecast of `forecast_balance` when history exists. -/
def lastYM (txs : List TransactionRecord) (account_id : Option String) :
    Int × Int :=
  let last := ((monthly_flow (filteredTx txs account_id)).getLast?).getD default
  (last.year, last.month)

/-- The arithmetic mean of the bucketed net values
(`sum(net_values) / n`), the slope of `forecast_balance`. -/
def meanNet (txs : List TransactionRecord) (account_id : Option String) : ℚ :=
  ((monthly_flow (filteredTx txs account_id)).map (·.net)).sum
    / ((monthly_flow (filteredTx txs account_id)).length : ℚ)

/-- A sample income transaction, used to instantiate universally quantified
results at a concrete input. -/
def sampleTx : TransactionRecord := ⟨30, "income", "misc", ⟨2025, 1, 1⟩, "a1"⟩

/-- A sample transaction with a type string that is neither `"income"` nor
`"expense"`. -/
def sampleOtherTx : TransactionRecord := ⟨7, "transfer", "misc", ⟨2025, 3, 4⟩, "a2"⟩

/-- Scenario A of the spec: three small expenses and one huge one,
threshold 1.5. -/
def scenarioA : List TransactionRecord :=
  [⟨10, "expense", "food", ⟨2025, 1, 1⟩, "a1"⟩,
   ⟨12, "expense", "food", ⟨2025, 1, 2⟩, "a1"⟩,
   ⟨11, "expense", "food", ⟨2025, 1, 3⟩, "a1"⟩,
   ⟨5000, "expense", "unknown", ⟨2025, 1, 4⟩, "a1"⟩]

/-- Scenario B of the spec: one income of 100 and one expense of 60. -/
def scenarioB : List TransactionRecord :=
  [⟨100, "income", "s", ⟨2025, 1, 1⟩, "a"⟩,
   ⟨60, "expense", "s", ⟨2025, 1, 2⟩, "a"⟩]

/-- Scenario C of the spec: the four 2025-01/2025-02 transactions. -/
def scenarioC : List TransactionRecord :=
  [⟨100, "income", "s", ⟨2025, 1, 1⟩, "a1"⟩,
   ⟨60, "expense", "s", ⟨2025, 1, 2⟩, "a1"⟩,
   ⟨100, "income", "s", ⟨2025, 2, 1⟩, "a1"⟩,
   ⟨80, "expense", "s", ⟨2025, 2, 2⟩, "a1"⟩]

/-- Scenario C accounts: a single account `a1` with balance 0. -/
def scenarioCAccounts : List AccountRecord := [⟨"a1", 0⟩]

/-! Helper lemmas shared by the claim theorems. -/

theorem listTruthy_of_ne_nil {α : Type} (l : List α) (h : l ≠ []) :
    listTruthy (some l) = true := by
  cases l with
  | nil => exact absurd rfl h
  | cons a t => rfl

theorem isEmpty_eq_false_of_ne_nil {α : Type} {l : List α} (h : l ≠ []) :
    l.isEmpty = false := by
  cases l with
  | nil => exact absurd rfl h
  | cons a t => rfl

/-- Claim C1, counterexample: with one account of balance 5 and a non-null but
EMPTY transaction list, `total_balance` returns the account fallback 5 (not 0.0)
and `balance_by_account` returns the stored account mapping (not an all-zero
empty one): `if transactions:` is falsy on an empty Python list, so an empty
list does NOT select the transactions as source of truth. -/
theorem empty_tx_overrides_cex :
    total_balance [⟨"a1", 5⟩] (some []) = 5
      ∧ total_balance [⟨"a1", 5⟩] (some []) ≠ 0
      ∧ balance_by_account [⟨"a1", 5⟩] (some []) = [("a1", 5)]
      ∧ balance_by_account [⟨"a1", 5⟩] (some []) ≠ [] := by
  refine ⟨?_, ?_, by decide, by decide⟩ <;>
    simp [total_balance, listTruthy, balance_by_account]

/-- Claim C1 (amended): a non-null but EMPTY transaction list behaves exactly
like an absent one — `total_balance` and `balance_by_account` fall back to the
accounts' stored balances; the supplied transactions are the source of truth
precisely when the list is non-empty. -/
theorem empty_tx_falls_back_to_accounts
    (accounts : List AccountRecord) (txs : List TransactionRecord)
    (h : txs ≠ []) :
    total_balance accounts (some []) = total_balance accounts none
      ∧ balance_by_account accounts (some []) = balance_by_account accounts none
      ∧ total_balance accounts (some txs) = balance_from_transactions txs
      ∧ balance_by_account accounts (some txs) = balancesFromTx txs := by
  have ht : listTruthy (some txs) = true := listTruthy_of_ne_nil txs h
  exact ⟨rfl, rfl, by simp [total_balance, ht], by simp [balance_by_account, ht]⟩

/-- Witness for `empty_tx_falls_back_to_accounts` at a concrete non-empty
transaction list. -/
theorem empty_tx_falls_back_to_accounts_witness :
    [sampleTx] ≠ ([] : List TransactionRecord)
      ∧ total_balance [] (some [sampleTx]) = balance_from_transactions [sampleTx] :=
  ⟨by decide, (empty_tx_falls_back_to_accounts [] [sampleTx] (by decide)).2.2.1⟩

/-- Claim C9: the `(year, month)` filter of `savings_ratio` is applied only
when both components are present — supplying only a year, or only a month,
gives the same result as supplying no filter at all. -/
theorem savings_ratio_needs_both_filters
    (txs : List TransactionRecord) (y m : Int) :
    savings_ratio txs (some y) none = savings_ratio txs none none
      ∧ savings_ratio txs none (some m) = savings_ratio txs none none :=
  ⟨rfl, rfl⟩

/-- Claim C7: with fewer than 2 filtered transactions, `detect_anomalies`
returns an empty anomaly list, zero mean, zero variance (hence zero standard
deviation), and echoes the threshold back; being a total function, it raises
no exception. -/
theorem detect_anomalies_degenerate
    (txs : List TransactionRecord) (threshold : ℚ)
    (account_id transaction_type : Option String)
    (h : (anomalyFiltered txs account_id transaction_type).length < 2) :
    detect_anomalies txs threshold account_id transaction_type
      = ⟨[], threshold, 0, 0⟩ := by
  unfold detect_anomalies
  rw [if_pos h]

/-- Witness for `detect_anomalies_degenerate`: a single transaction. -/
theorem detect_anomalies_degenerate_witness :
    (anomalyFiltered [sampleTx] none none).length < 2
      ∧ detect_anomalies [sampleTx] 3 none none = ⟨[], 3, 0, 0⟩ :=
  ⟨by decide, detect_anomalies_degenerate [sampleTx] 3 none none (by decide)⟩

/-- Claim C2, counterexample: the no-history branch of `forecast_balance`
reads the ambient current date (`date.today()` in the source, the explicit
`today` argument here), so two calls with identical
(accounts, transactions, account_id, months_ahead) made on different dates
return different period labels — the output is not a function of those four
arguments alone. -/
theorem forecast_today_dependence_cex :
    forecast_balance ⟨2025, 1, 15⟩ [] [] none 1
      ≠ forecast_balance ⟨2025, 2, 15⟩ [] [] none 1 := by decide

/-- Claim C2 (amended): `forecast_balance` is deterministic as a function of
its arguments together with the current date, and whenever the (possibly
account-filtered) monthly flow is non-empty the result does not depend on the
current date at all; only the no-history branch consults it. -/
theorem forecast_independent_of_today_with_history
    (d1 d2 : PyDate) (accounts : List AccountRecord)
    (txs : List TransactionRecord) (account_id : Option String) (n : Nat)
    (h : monthly_flow (filteredTx txs account_id) ≠ []) :
    forecast_balance d1 accounts txs account_id n
      = forecast_balance d2 accounts txs account_id n := by
  have he : (monthly_flow (filteredTx txs account_id)).isEmpty = false :=
    isEmpty_eq_false_of_ne_nil h
  unfold forecast_balance
  simp only [he, Bool.false_eq_true, if_false]

/-- Witness for `forecast_independent_of_today_with_history` at Scenario C
data with two different current dates. -/
theorem forecast_independent_of_today_witness :
    monthly_flow (filteredTx scenarioC none) ≠ []
      ∧ forecast_balance ⟨2025, 1, 1⟩ scenarioCAccounts scenarioC none 3
          = forecast_balance ⟨2026, 7, 9⟩ scenarioCAccounts scenarioC none 3 :=
  ⟨by decide,
    forecast_independent_of_today_with_history ⟨2025, 1, 1⟩ ⟨2026, 7, 9⟩
      scenarioCAccounts scenarioC none 3 (by decide)⟩

theorem snd_sum_addToCategory (m : List (String × ℚ)) (cat : String) (amt : ℚ) :
    ((addToCategory m cat amt).map (·.2)).sum = (m.map (·.2)).sum + amt := by
  induction m with
  | nil => simp [addToCategory]
  | cons p rest ih =>
    obtain ⟨k, v⟩ := p
    by_cases h : k = cat
    · simp only [addToCategory, if_pos h]
      simp
      ring
    · simp only [addToCategory, if_neg h]
      simp [ih]
      ring

theorem catFold_sum (l : List TransactionRecord) :
    ∀ m : List (String × ℚ),
      ((l.foldl (fun m t => addToCategory m t.category t.amount) m).map (·.2)).sum
        = (m.map (·.2)).sum + (l.map (·.amount)).sum := by
  induction l with
  | nil => intro m; simp
  | cons t rest ih =>
    intro m
    simp only [List.foldl_cons]
    rw [ih, snd_sum_addToCategory]
    simp
    ring

/-- Claim C8: the `total` of `distribution_by_category` equals the sum of the
values of its `by_category` mapping, and both equal the sum of the amounts of
the transactions surviving the type/year/month filter. -/
theorem distribution_total_spec (txs : List TransactionRecord)
    (transaction_type : String) (year month : Option Int) :
    (distribution_by_category txs transaction_type year month).total
        = ((distribution_by_category txs transaction_type year month).by_category.map
            (·.2)).sum
      ∧ (distribution_by_category txs transaction_type year month).total
        = ((catFiltered txs transaction_type year month).map (·.amount)).sum := by
  refine ⟨rfl, ?_⟩
  show (((catFiltered txs transaction_type year month).foldl
      (fun m t => addToCategory m t.category t.amount) []).map (·.2)).sum = _
  rw [catFold_sum]
  simp

/-- Claim C10: only the exact type string `"income"` is classified as income;
a transaction of ANY other type has its amount subtracted by
`_balance_from_transactions`, `total_balance` and `balance_by_account`, and
added to the expense component of its `monthly_flow` bucket. -/
theorem non_income_treated_as_expense
    (accounts : List AccountRecord) (txs : List TransactionRecord)
    (tx : TransactionRecord) (h : tx.type ≠ "income") :
    balance_from_transactions (txs ++ [tx])
        = balance_from_transactions txs - tx.amount
      ∧ total_balance accounts (some (txs ++ [tx]))
        = balance_from_transactions txs - tx.amount
      ∧ balance_by_account accounts (some (txs ++ [tx]))
        = addToAccount (balancesFromTx txs) tx.account_id (-tx.amount)
      ∧ buildMonths (txs ++ [tx])
        = addToMonth (buildMonths txs) (tx.date.year, tx.date.month) false tx.amount
      ∧ monthly_flow [tx]
        = [⟨tx.date.year, tx.date.month, 0, tx.amount, -tx.amount⟩] := by
  have hne : txs ++ [tx] ≠ [] := by simp
  have h1 : balance_from_transactions (txs ++ [tx])
      = balance_from_transactions txs - tx.amount := by
    unfold balance_from_transactions
    rw [List.foldl_append]
    simp [balanceStep, h]
  refine ⟨h1, ?_, ?_, ?_, ?_⟩
  · simp [total_balance, listTruthy_of_ne_nil _ hne, h1]
  · simp [balance_by_account, listTruthy_of_ne_nil _ hne, balancesFromTx,
      List.foldl_append, accountStep, h]
  · simp [buildMonths, List.foldl_append, monthStep, decide_eq_false h]
  · simp [monthly_flow, buildMonths, monthStep, addToMonth, decide_eq_false h,
      List.insertionSort, List.orderedInsert, toFlow]

/-- Witness for `non_income_treated_as_expense` at a transaction whose type
string is neither `"income"` nor `"expense"`. -/
theorem non_income_treated_as_expense_witness :
    sampleOtherTx.type ≠ "income"
      ∧ monthly_flow [sampleOtherTx]
        = [⟨sampleOtherTx.date.year, sampleOtherTx.date.month, 0,
            sampleOtherTx.amount, -sampleOtherTx.amount⟩] :=
  ⟨by decide, (non_income_treated_as_expense [] [] sampleOtherTx (by decide)).2.2.2.2⟩

/-- Claim C5: `savings_ratio` returns `none` exactly when the filtered flow is
empty or its total income is at most 0; otherwise it returns
`(total_income - total_expense) / total_income` (negative when expense exceeds
income); Scenario B yields 0.4. -/
theorem savings_ratio_spec (txs : List TransactionRecord) (year month : Option Int) :
    (savings_ratio txs year month = none
        ↔ flowFiltered txs year month = []
          ∨ ((flowFiltered txs year month).map (·.income)).sum ≤ 0)
      ∧ (flowFiltered txs year month ≠ [] →
          0 < ((flowFiltered txs year month).map (·.income)).sum →
          savings_ratio txs year month
            = some ((((flowFiltered txs year month).map (·.income)).sum
                  - ((flowFiltered txs year month).map (·.expense)).sum)
                / ((flowFiltered txs year month).map (·.income)).sum))
      ∧ savings_ratio scenarioB none none = some 0.4 := by
  refine ⟨?_, ?_, ?_⟩
  · unfold savings_ratio
    by_cases he : flowFiltered txs year month = []
    · simp [he]
    · rw [if_neg (by simp [List.isEmpty_iff, he])]
      by_cases hi : ((flowFiltered txs year month).map (·.income)).sum ≤ 0
      · simp [hi, he]
      · simp [hi, he]
  · intro he hi
    unfold savings_ratio
    rw [if_neg (by simp [List.isEmpty_iff, he]), if_neg (by simpa using not_le.mpr hi)]
  · simp [savings_ratio, flowFiltered, monthly_flow, buildMonths, monthStep,
      addToMonth, scenarioB, toFlow, List.insertionSort, List.orderedInsert,
      String.reduceEq]
    norm_num

/-- Witness for `savings_ratio_spec` at Scenario B. -/
theorem savings_ratio_spec_witness :
    flowFiltered scenarioB none none ≠ []
      ∧ 0 < ((flowFiltered scenarioB none none).map (·.income)).sum
      ∧ savings_ratio scenarioB none none
          = some ((((flowFiltered scenarioB none none).map (·.income)).sum
                - ((flowFiltered scenarioB none none).map (·.expense)).sum)
              / ((flowFiltered scenarioB none none).map (·.income)).sum) := by
  have h1 : flowFiltered scenarioB none none ≠ [] := by decide
  have h2 : 0 < ((flowFiltered scenarioB none none).map (·.income)).sum := by
    simp [flowFiltered, monthly_flow, buildMonths, monthStep, addToMonth,
      scenarioB, toFlow, List.insertionSort, List.orderedInsert, String.reduceEq]
  exact ⟨h1, h2, (savings_ratio_spec scenarioB none none).2.1 h1 h2⟩

theorem incomeSum_addToMonth (m : List MonthEntry) (k : Int × Int) (b : Bool) (a : ℚ) :
    ((addToMonth m k b a).map (fun e => e.2.1)).sum
      = (m.map (fun e => e.2.1)).sum + (if b then a else 0) := by
  induction m with
  | nil => cases b <;> simp [addToMonth]
  | cons p rest ih =>
    obtain ⟨k1, v⟩ := p
    by_cases h : k1 = k
    · cases b <;> simp [addToMonth, h] <;> ring
    · simp only [addToMonth, if_neg h, List.map_cons, List.sum_cons, ih]
      ring

theorem expenseSum_addToMonth (m : List MonthEntry) (k : Int × Int) (b : Bool) (a : ℚ) :
    ((addToMonth m k b a).map (fun e => e.2.2)).sum
      = (m.map (fun e => e.2.2)).sum + (if b then 0 else a) := by
  induction m with
  | nil => cases b <;> simp [addToMonth]
  | cons p rest ih =>
    obtain ⟨k1, v⟩ := p
    by_cases h : k1 = k
    · cases b <;> simp [addToMonth, h] <;> ring
    · simp only [addToMonth, if_neg h, List.map_cons, List.sum_cons, ih]
      ring

theorem keys_addToMonth (m : List MonthEntry) (k : Int × Int) (b : Bool) (a : ℚ) :
    (addToMonth m k b a).map Prod.fst
      = if k ∈ m.map Prod.fst then m.map Prod.fst else m.map Prod.fst ++ [k] := by
  induction m with
  | nil => simp [addToMonth]
  | cons p rest ih =>
    obtain ⟨k1, v⟩ := p
    by_cases h : k1 = k
    · subst h; simp [addToMonth]
    · have hx : k ≠ k1 := fun hk => h hk.symm
      simp only [addToMonth, if_neg h, List.map_cons, ih, List.mem_cons]
      by_cases hm : k ∈ rest.map Prod.fst <;> simp [hm, hx]

theorem nodup_keys_addToMonth {m : List MonthEntry} (k : Int × Int) (b : Bool)
    (a : ℚ) (h : (m.map Prod.fst).Nodup) :
    ((addToMonth m k b a).map Prod.fst).Nodup := by
  rw [keys_addToMonth]
  by_cases hm : k ∈ m.map Prod.fst
  · simpa [hm]
  · simp [hm, List.nodup_append, h]

theorem nodup_keys_buildMonths_aux (l : List TransactionRecord) :
    ∀ m : List MonthEntry, (m.map Prod.fst).Nodup →
      ((l.foldl monthStep m).map Prod.fst).Nodup := by
  induction l with
  | nil => intro m h; simpa
  | cons t rest ih =>
    intro m h
    simp only [List.foldl_cons]
    exact ih _ (nodup_keys_addToMonth _ _ _ h)

theorem nodup_keys_buildMonths (txs : List TransactionRecord) :
    ((buildMonths txs).map Prod.fst).Nodup :=
  nodup_keys_buildMonths_aux txs [] (by simp)

theorem incomeSum_foldl (l : List TransactionRecord) :
    ∀ m : List MonthEntry,
      ((l.foldl monthStep m).map (fun e => e.2.1)).sum
        = (m.map (fun e => e.2.1)).sum
          + ((l.filter fun t => decide (t.type = "income")).map (·.amount)).sum := by
  induction l with
  | nil => intro m; simp
  | cons t rest ih =>
    intro m
    simp only [List.foldl_cons, List.filter_cons]
    rw [ih]
    simp only [monthStep]
    rw [incomeSum_addToMonth]
    by_cases h : t.type = "income"
    · simp [h]; ring
    · simp [h]

theorem expenseSum_foldl (l : List TransactionRecord) :
    ∀ m : List MonthEntry,
      ((l.foldl monthStep m).map (fun e => e.2.2)).sum
        = (m.map (fun e => e.2.2)).sum
          + ((l.filter fun t => !decide (t.type = "income")).map (·.amount)).sum := by
  induction l with
  | nil => intro m; simp
  | cons t rest ih =>
    intro m
    simp only [List.foldl_cons, List.filter_cons]
    rw [ih]
    simp only [monthStep]
    rw [expenseSum_addToMonth]
    by_cases h : t.type = "income"
    · simp [h]
    · simp [h]; ring

theorem monthly_flow_map_income (txs : List TransactionRecord) :
    ((monthly_flow txs).map (·.income)).sum
      = ((txs.filter fun t => decide (t.type = "income")).map (·.amount)).sum := by
  unfold monthly_flow
  rw [List.map_map]
  have h1 : (List.insertionSort entryLE (buildMonths txs)).map
        ((fun f : MonthlyFlow => f.income) ∘ toFlow)
      = (List.insertionSort entryLE (buildMonths txs)).map (fun e => e.2.1) :=
    List.map_congr_left fun a _ => rfl
  rw [h1, ((List.perm_insertionSort entryLE (buildMonths txs)).map
    (fun e : MonthEntry => e.2.1)).sum_eq]
  simpa [buildMonths] using incomeSum_foldl txs []

theorem monthly_flow_map_expense (txs : List TransactionRecord) :
    ((monthly_flow txs).map (·.expense)).sum
      = ((txs.filter fun t => !decide (t.type = "income")).map (·.amount)).sum := by
  unfold monthly_flow
  rw [List.map_map]
  have h1 : (List.insertionSort entryLE (buildMonths txs)).map
        ((fun f : MonthlyFlow => f.expense) ∘ toFlow)
      = (List.insertionSort entryLE (buildMonths txs)).map (fun e => e.2.2) :=
    List.map_congr_left fun a _ => rfl
  rw [h1, ((List.perm_insertionSort entryLE (buildMonths txs)).map
    (fun e : MonthEntry => e.2.2)).sum_eq]
  simpa [buildMonths] using expenseSum_foldl txs []

theorem keyLT_of_keyLE_ne {p q : Int × Int} (h1 : keyLE p q) (h2 : p ≠ q) :
    keyLT p q := by
  obtain ⟨p1, p2⟩ := p
  obtain ⟨q1, q2⟩ := q
  simp only [keyLE] at h1
  simp only [keyLT]
  simp only [ne_eq, Prod.mk.injEq, not_and] at h2
  omega

theorem monthly_flow_pairwise (txs : List TransactionRecord) :
    List.Pairwise (fun f g : MonthlyFlow => keyLT (f.year, f.month) (g.year, g.month))
      (monthly_flow txs) := by
  unfold monthly_flow
  rw [List.pairwise_map]
  have hs : List.Pairwise entryLE (List.insertionSort entryLE (buildMonths txs)) :=
    List.sorted_insertionSort entryLE (buildMonths txs)
  have hn : ((List.insertionSort entryLE (buildMonths txs)).map Prod.fst).Nodup :=
    (((List.perm_insertionSort entryLE (buildMonths txs)).map
      Prod.fst).nodup_iff).mpr (nodup_keys_buildMonths txs)
  have hne : List.Pairwise (fun a b : MonthEntry => a.1 ≠ b.1)
      (List.insertionSort entryLE (buildMonths txs)) := List.pairwise_map.mp hn
  refine (hs.and hne).imp ?_
  intro a b hab
  have : keyLT a.1 b.1 := keyLT_of_keyLE_ne hab.1 hab.2
  simpa [toFlow] using this

theorem monthly_flow_net (txs : List TransactionRecord) :
    ∀ f ∈ monthly_flow txs, f.net = f.income - f.expense := by
  intro f hf
  unfold monthly_flow at hf
  obtain ⟨e, _, rfl⟩ := List.mem_map.mp hf
  rfl

/-- Claim C3: the buckets of `monthly_flow` are strictly ascending in
`(year, month)`, each bucket's `net` equals `income - expense` exactly, and
the bucketed income (resp. expense) totals equal a direct filter-and-sum over
the whole input, where income means type string exactly `"income"`. -/
theorem monthly_flow_spec (txs : List TransactionRecord) :
    List.Pairwise (fun f g : MonthlyFlow => keyLT (f.year, f.month) (g.year, g.month))
        (monthly_flow txs)
      ∧ (∀ f ∈ monthly_flow txs, f.net = f.income - f.expense)
      ∧ ((monthly_flow txs).map (·.income)).sum
          = ((txs.filter fun t => decide (t.type = "income")).map (·.amount)).sum
      ∧ ((monthly_flow txs).map (·.expense)).sum
          = ((txs.filter fun t => !decide (t.type = "income")).map (·.amount)).sum :=
  ⟨monthly_flow_pairwise txs, monthly_flow_net txs, monthly_flow_map_income txs,
    monthly_flow_map_expense txs⟩

theorem forecastPoints_eq (n : Nat) :
    ∀ (ym : Int × Int) (cum avg : ℚ),
      forecastPoints ym cum avg n
        = (List.range n).map fun k =>
            ⟨periodStr (nextMonth^[k + 1] ym).1 (nextMonth^[k + 1] ym).2,
              round2 (cum + ((k : ℚ) + 1) * avg)⟩ := by
  induction n with
  | zero => intro ym cum avg; simp [forecastPoints]
  | succ n ih =>
    intro ym cum avg
    rw [List.range_succ_eq_map, List.map_cons, List.map_map]
    show (⟨periodStr (nextMonth ym).1 (nextMonth ym).2, round2 (cum + avg)⟩ : ForecastPoint)
        :: forecastPoints (nextMonth ym) (cum + avg) avg n = _
    rw [ih (nextMonth ym) (cum + avg) avg]
    congr 1
    · simp
    · apply List.map_congr_left
      intro k hk
      have hiter : nextMonth^[k + 1] (nextMonth ym) = nextMonth^[k + 1 + 1] ym :=
        (Function.iterate_succ_apply nextMonth (k + 1) ym).symm
      have hval : cum + avg + ((k : ℚ) + 1) * avg
          = cum + (((k + 1 : ℕ) : ℚ) + 1) * avg := by
        push_cast
        ring
      simp only [Function.comp, Nat.succ_eq_add_one, hiter, hval]

theorem keyLT_nextMonth (ym : Int × Int) : keyLT ym (nextMonth ym) := by
  obtain ⟨y, m⟩ := ym
  simp only [nextMonth, keyLT]
  by_cases h : m + 1 > 12 <;> simp [h] <;> omega

theorem keyLT_trans {a b c : Int × Int} (h1 : keyLT a b) (h2 : keyLT b c) :
    keyLT a c := by
  simp only [keyLT] at h1 h2 ⊢
  omega

theorem keyLT_iterate (ym : Int × Int) : ∀ j : Nat, 0 < j →
    keyLT ym (nextMonth^[j] ym) := by
  intro j
  induction j with
  | zero => intro hj; exact absurd hj (by omega)
  | succ j ih =>
    intro _
    by_cases hj : 0 < j
    · refine keyLT_trans (ih hj) ?_
      rw [Function.iterate_succ_apply']
      exact keyLT_nextMonth _
    · have hj0 : j = 0 := by omega
      subst hj0
      simpa using keyLT_nextMonth ym

theorem pairwise_keyLT_iterates (ym : Int × Int) (n : Nat) :
    List.Pairwise keyLT ((List.range n).map fun k => nextMonth^[k + 1] ym) := by
  refine List.Pairwise.map _ ?_ (List.pairwise_lt_range n)
  intro i j hij
  obtain ⟨d, rfl⟩ := Nat.exists_eq_add_of_lt hij
  have hsplit : nextMonth^[i + d + 1 + 1] ym
      = nextMonth^[d + 1] (nextMonth^[i + 1] ym) := by
    rw [← Function.iterate_add_apply]
    congr 1
    omega
  rw [hsplit]
  exact keyLT_iterate _ (d + 1) (by omega)

/-- Claim C4: with non-empty (possibly account-filtered) flow,
`forecast_balance` returns exactly `months_ahead` points whose `(year, month)`
sequence is the strictly increasing chain of successive months starting right
after the last bucket (wrapping 12 to 1), the slope is the arithmetic mean of
the bucketed nets, the k-th value is the current balance plus k times that
mean rounded to 2 decimals at output, and Scenario C yields slope 30 and
values [90, 120]. -/
theorem forecast_points_spec (today : PyDate) (accounts : List AccountRecord)
    (txs : List TransactionRecord) (account_id : Option String) (n : Nat)
    (h : monthly_flow (filteredTx txs account_id) ≠ []) :
    (forecast_balance today accounts txs account_id n).points.length = n
      ∧ (forecast_balance today accounts txs account_id n).slope
          = meanNet txs account_id
      ∧ (forecast_balance today accounts txs account_id n).points
          = ((List.range n).map fun k =>
              ⟨periodStr (nextMonth^[k + 1] (lastYM txs account_id)).1
                  (nextMonth^[k + 1] (lastYM txs account_id)).2,
                round2 (currentBalance accounts txs account_id
                  + ((k : ℚ) + 1) * meanNet txs account_id)⟩)
      ∧ List.Pairwise keyLT
          ((List.range n).map fun k => nextMonth^[k + 1] (lastYM txs account_id))
      ∧ (forecast_balance ⟨2025, 6, 1⟩ scenarioCAccounts scenarioC none 2).slope = 30
      ∧ (forecast_balance ⟨2025, 6, 1⟩ scenarioCAccounts scenarioC none 2).points.map
          (·.period) = ["2025-03", "2025-04"]
      ∧ (forecast_balance ⟨2025, 6, 1⟩ scenarioCAccounts scenarioC none 2).points.map
          (·.value) = [90, 120] := by
  have he : (monthly_flow (filteredTx txs account_id)).isEmpty = false :=
    isEmpty_eq_false_of_ne_nil h
  have hlen : (monthly_flow (filteredTx txs account_id)).length ≠ 0 := by
    simpa [List.length_eq_zero] using h
  have hmain : forecast_balance today accounts txs account_id n
      = ⟨forecastPoints (lastYM txs account_id)
            (currentBalance accounts txs account_id) (meanNet txs account_id) n,
          meanNet txs account_id⟩ := by
    unfold forecast_balance
    simp only [he, Bool.false_eq_true, if_false, List.length_map]
    rw [if_neg hlen]
    rfl
  refine ⟨?_, ?_, ?_, pairwise_keyLT_iterates _ n, ?_, ?_, ?_⟩
  · rw [hmain]
    show (forecastPoints _ _ _ n).length = n
    rw [forecastPoints_eq]
    simp
  · rw [hmain]
  · rw [hmain]
    exact forecastPoints_eq n _ _ _
  · simp [forecast_balance, monthly_flow, buildMonths, monthStep, addToMonth,
      scenarioC, scenarioCAccounts, toFlow, List.insertionSort, List.orderedInsert,
      entryLE, keyLE, filteredTx, String.reduceEq]
    norm_num
  · decide
  · simp [forecast_balance, monthly_flow, buildMonths, monthStep, addToMonth,
      scenarioC, scenarioCAccounts, toFlow, List.insertionSort, List.orderedInsert,
      entryLE, keyLE, filteredTx, String.reduceEq, forecastPoints, nextMonth,
      currentBalance, balance_by_account, balancesFromTx, accountStep,
      addToAccount, listTruthy, round2, roundHalfEven]
    norm_num

/-- Witness for `forecast_points_spec` at the Scenario C input. -/
theorem forecast_points_spec_witness :
    monthly_flow (filteredTx scenarioC none) ≠ []
      ∧ (forecast_balance ⟨2025, 6, 1⟩ scenarioCAccounts scenarioC none 2).points.length
          = 2 :=
  ⟨by decide,
    (forecast_points_spec ⟨2025, 6, 1⟩ scenarioCAccounts scenarioC none 2 (by decide)).1⟩

theorem varAmount_nonneg (filtered : List TransactionRecord) :
    0 ≤ varAmount filtered := by
  unfold varAmount
  apply div_nonneg
  · apply List.sum_nonneg
    intro x hx
    obtain ⟨t, _, rfl⟩ := List.mem_map.mp hx
    positivity
  · positivity

theorem anomalyFlag_iff_zscore (x mean variance threshold : ℚ)
    (hv : 0 ≤ variance) :
    anomalyFlag x mean variance threshold = true
      ↔ (threshold : ℝ) ≤ |zScoreR x mean variance| := by
  by_cases hvp : 0 < variance
  · have hvR : (0 : ℝ) < (variance : ℝ) := by exact_mod_cast hvp
    have hsp : 0 < Real.sqrt (variance : ℝ) := Real.sqrt_pos.mpr hvR
    have hz : zScoreR x mean variance
        = ((x : ℝ) - (mean : ℝ)) / Real.sqrt (variance : ℝ) := by
      simp [zScoreR, stdR, hvp, hsp.ne']
    by_cases ht : threshold ≤ 0
    · have htR : (threshold : ℝ) ≤ 0 := by exact_mod_cast ht
      simp only [anomalyFlag, if_pos hvp, if_pos ht, true_iff]
      exact le_trans htR (abs_nonneg _)
    · have htR : (0 : ℝ) ≤ (threshold : ℝ) := by
        exact_mod_cast le_of_lt (lt_of_not_ge ht)
      simp only [anomalyFlag, if_pos hvp, if_neg ht, decide_eq_true_eq]
      rw [hz, abs_div, abs_of_pos hsp, le_div_iff₀ hsp]
      have key : ((threshold : ℝ) * Real.sqrt (variance : ℝ)
            ≤ |(x : ℝ) - (mean : ℝ)|)
          ↔ threshold ^ 2 * variance ≤ (x - mean) ^ 2 := by
        rw [← pow_le_pow_iff_left₀ (mul_nonneg htR hsp.le) (abs_nonneg _)
          two_ne_zero, mul_pow, Real.sq_sqrt hvR.le, sq_abs]
        exact_mod_cast Iff.rfl
      rw [key]
  · have hz : zScoreR x mean variance = 0 := by simp [zScoreR, stdR, hvp]
    simp [anomalyFlag, hvp, hz, Rat.cast_nonpos]

theorem filterOfMap {α β : Type} (p : β → Bool) (f : α → β) (l : List α) :
    (l.map f).filter p = (l.filter fun a => p (f a)).map f := by
  induction l with
  | nil => rfl
  | cons a t ih =>
    simp only [List.map_cons, List.filter_cons]
    by_cases h : p (f a) = true
    · simp [h, ih]
    · simp [h, ih]

theorem collectAnomalies_eq (mv vr th : ℚ) :
    ∀ (l : List TransactionRecord) (i : Nat),
      collectAnomalies mv vr th i l
        = (((List.range l.length).filter fun j =>
              anomalyFlag (l.getD j default).amount mv vr th).map
            fun j => mkPoint (i + j) (l.getD j default)) := by
  intro l
  induction l with
  | nil => intro i; rfl
  | cons tx rest ih =>
    intro i
    simp only [List.length_cons, List.range_succ_eq_map, List.filter_cons,
      List.getD_cons_zero, List.getD_cons_succ]
    rw [filterOfMap]
    by_cases h : anomalyFlag tx.amount mv vr th = true
    · simp only [collectAnomalies, if_pos h, h, ih (i + 1), eq_self_iff_true,
        if_true, List.map_cons, List.map_map, List.getD_cons_zero,
        List.getD_cons_succ, Nat.succ_eq_add_one]
      congr 1
      apply List.map_congr_left
      intro j hj
      have hidx : i + 1 + j = i + (j + 1) := by omega
      simp [Function.comp, mkPoint, hidx]
    · simp only [collectAnomalies, if_neg h, h, Bool.false_eq_true, if_false,
        ih (i + 1), List.map_map, List.getD_cons_succ, Nat.succ_eq_add_one]
      apply List.map_congr_left
      intro j hj
      have hidx : i + 1 + j = i + (j + 1) := by omega
      simp [Function.comp, mkPoint, hidx]

theorem collect_indices (mv vr th : ℚ) (l : List TransactionRecord) :
    (collectAnomalies mv vr th 0 l).map (·.index)
      = (List.range l.length).filter fun j =>
          anomalyFlag (l.getD j default).amount mv vr th := by
  rw [collectAnomalies_eq, List.map_map]
  have hfun : ((fun a : AnomalyPoint => a.index)
        ∘ fun j => mkPoint (0 + j) (l.getD j default)) = fun j => j := by
    funext j
    simp [mkPoint]
  rw [hfun]
  simp

theorem detect_anomalies_main (txs : List TransactionRecord) (th : ℚ)
    (aid ty : Option String)
    (h : 2 ≤ (anomalyFiltered txs aid ty).length) :
    detect_anomalies txs th aid ty
      = ⟨collectAnomalies (meanAmount (anomalyFiltered txs aid ty))
            (varAmount (anomalyFiltered txs aid ty)) th 0
            (anomalyFiltered txs aid ty),
          th, round2 (meanAmount (anomalyFiltered txs aid ty)),
          varAmount (anomalyFiltered txs aid ty)⟩ := by
  unfold detect_anomalies
  rw [if_neg (by omega)]

/-- Claim C6: with at least 2 filtered transactions, a filtered transaction is
reported by `detect_anomalies` if and only if the absolute value of its
z-score (0 when the standard deviation is 0) is at least the threshold
(inclusive boundary), the reported anomalies keep the relative order of the
filtered input (their 0-based filtered indices are strictly increasing), and
each anomaly carries its filtered index and the fields of the transaction at
that index. -/
theorem detect_anomalies_spec (txs : List TransactionRecord) (threshold : ℚ)
    (account_id transaction_type : Option String)
    (h : 2 ≤ (anomalyFiltered txs account_id transaction_type).length) :
    (∀ j, j < (anomalyFiltered txs account_id transaction_type).length →
        ((∃ a ∈ (detect_anomalies txs threshold account_id transaction_type).anomalies,
            a.index = j)
          ↔ (threshold : ℝ)
              ≤ |zScoreR
                  ((anomalyFiltered txs account_id transaction_type).getD j
                    default).amount
                  (meanAmount (anomalyFiltered txs account_id transaction_type))
                  (varAmount (anomalyFiltered txs account_id transaction_type))|))
      ∧ List.Pairwise (· < ·)
          (((detect_anomalies txs threshold account_id transaction_type).anomalies).map
            (·.index))
      ∧ ∀ a ∈ (detect_anomalies txs threshold account_id transaction_type).anomalies,
          a.index < (anomalyFiltered txs account_id transaction_type).length
            ∧ a = mkPoint a.index
                ((anomalyFiltered txs account_id transaction_type).getD a.index
                  default) := by
  have hmain := detect_anomalies_main txs threshold account_id transaction_type h
  rw [hmain]
  refine ⟨?_, ?_, ?_⟩
  · intro j hj
    constructor
    · rintro ⟨a, ha, rfl⟩
      rw [collectAnomalies_eq] at ha
      obtain ⟨jj, hjj, rfl⟩ := List.mem_map.mp ha
      obtain ⟨hjr, hjf⟩ := List.mem_filter.mp hjj
      rw [← anomalyFlag_iff_zscore _ _ _ _
        (varAmount_nonneg (anomalyFiltered txs account_id transaction_type))]
      simpa [mkPoint] using hjf
    · intro hz
      rw [← anomalyFlag_iff_zscore _ _ _ _
        (varAmount_nonneg (anomalyFiltered txs account_id transaction_type))] at hz
      refine ⟨mkPoint j ((anomalyFiltered txs account_id transaction_type).getD j
        default), ?_, rfl⟩
      rw [collectAnomalies_eq]
      refine List.mem_map.mpr ⟨j, ?_, by simp⟩
      exact List.mem_filter.mpr ⟨List.mem_range.mpr hj, hz⟩
  · rw [collect_indices]
    exact (List.pairwise_lt_range _).filter _
  · intro a ha
    rw [collectAnomalies_eq] at ha
    obtain ⟨j, hj, rfl⟩ := List.mem_map.mp ha
    obtain ⟨hjr, _⟩ := List.mem_filter.mp hj
    have hjlt := List.mem_range.mp hjr
    constructor
    · simpa [mkPoint] using hjlt
    · simp [mkPoint]

/-- Witness for `detect_anomalies_spec` at the Scenario A input with
threshold 1.5. -/
theorem detect_anomalies_spec_witness :
    2 ≤ (anomalyFiltered scenarioA none none).length
      ∧ List.Pairwise (· < ·)
          (((detect_anomalies scenarioA (3 / 2) none none).anomalies).map (·.index)) :=
  ⟨by decide, (detect_anomalies_spec scenarioA (3 / 2) none none (by decide)).2.1⟩
